import Mathlib

/-!
Verification of the FISCO-BCOS transaction-executor core against its
natural-language specification.

The development shallowly embeds two source components:

* `bcos-storage/bcos-storage/StateKVResolver.h` — the key codec
  (`StateKeyResolver::encode` / `StateKeyResolver::decode`);
* `transaction-executor/bcos-transaction-executor/vm/HostContext.h` — the
  execution host (`HostContext::create`, `call`, `execute`, `externalCall`,
  `setCode`, `setCodeAndABI`, code lookup and CREATE address derivation).

Bytes are modelled as `Nat`, byte strings as `List Nat`.  The interpreter
(evmone), the hash implementation and the precompiled registry are external
collaborators and appear as opaque function parameters.  The transactional
storage (`Rollbackable`) is not part of the sampled sources; it is modelled
from the specification's savepoint contract (section 4.2) as a base map plus
an append-only write journal, with `current` returning the journal length and
`rollback` truncating the journal.
-/

/-! ### Key codec: StateKeyResolver (StateKVResolver.h) -/

/-- The separator byte `TABLE_KEY_SPLIT = ':'` from `StateKeyResolver`. -/
def TABLE_KEY_SPLIT : Nat := 58

/-- Decode-side error, modelling the `InvalidStateKey` exception. -/
inductive DecodeError where
  | invalidStateKey
deriving DecidableEq

/-- `StateKeyResolver::encode`: table bytes, the separator, then key bytes. -/
def StateKeyResolver.encode (tableName key : List Nat) : List Nat :=
  tableName ++ TABLE_KEY_SPLIT :: key

/-- Position of the first separator byte, modelling `view.find(TABLE_KEY_SPLIT)`
    (`none` stands for `npos`). -/
def findSplit : List Nat → Option Nat
  | [] => none
  | b :: rest =>
    if b = TABLE_KEY_SPLIT then some 0
    else Option.map (fun n => n + 1) (findSplit rest)

/-- `StateKeyResolver::decode`: split the flat key at the first separator;
    reject a missing separator and empty table or key segments. -/
def StateKeyResolver.decode (buffer : List Nat) :
    Except DecodeError (List Nat × List Nat) :=
  match findSplit buffer with
  | none => Except.error DecodeError.invalidStateKey
  | some pos =>
    let tableRange := buffer.take pos
    let keyRange := buffer.drop (pos + 1)
    if tableRange = [] ∨ keyRange = [] then
      Except.error DecodeError.invalidStateKey
    else
      Except.ok (tableRange, keyRange)

lemma findSplit_eq_none_iff (l : List Nat) :
    findSplit l = none ↔ TABLE_KEY_SPLIT ∉ l := by
  induction l with
  | nil => simp [findSplit]
  | cons b rest ih =>
    by_cases hb : b = TABLE_KEY_SPLIT
    · subst hb
      simp [findSplit]
    · simp [findSplit, hb, ih, Ne.symm hb]

lemma findSplit_some_lt (l : List Nat) (p : Nat) (h : findSplit l = some p) :
    p < l.length := by
  induction l generalizing p with
  | nil => simp [findSplit] at h
  | cons b rest ih =>
    simp only [findSplit] at h
    by_cases hb : b = TABLE_KEY_SPLIT
    · rw [if_pos hb] at h
      have hp : p = 0 := (Option.some.inj h).symm
      subst hp
      simp
    · rw [if_neg hb] at h
      cases hfs : findSplit rest with
      | none => rw [hfs] at h; simp at h
      | some q =>
        rw [hfs] at h
        simp only [Option.map_some'] at h
        have hq : q + 1 = p := Option.some.inj h
        have := ih q hfs
        simp only [List.length_cons]
        omega

lemma findSplit_append_sep (t k : List Nat) (ht : TABLE_KEY_SPLIT ∉ t) :
    findSplit (t ++ TABLE_KEY_SPLIT :: k) = some t.length := by
  induction t with
  | nil => simp [findSplit]
  | cons b rest ih =>
    have hb : b ≠ TABLE_KEY_SPLIT := fun hc => ht (hc ▸ List.mem_cons_self b rest)
    have hrest : TABLE_KEY_SPLIT ∉ rest := fun hc => ht (List.mem_cons_of_mem b hc)
    simp [findSplit, hb, ih hrest]

lemma take_len_append_cons (t : List Nat) (x : Nat) (k : List Nat) :
    (t ++ x :: k).take t.length = t := by
  induction t with
  | nil => simp
  | cons b rest ih => simp [ih]

lemma drop_len_succ_append_cons (t : List Nat) (x : Nat) (k : List Nat) :
    (t ++ x :: k).drop (t.length + 1) = k := by
  induction t with
  | nil => simp
  | cons b rest ih =>
    simp only [List.cons_append, List.length_cons, List.drop_succ_cons]
    exact ih

lemma decode_encode_aux (t k : List Nat) (ht : t ≠ []) (hk : k ≠ [])
    (hts : TABLE_KEY_SPLIT ∉ t) :
    StateKeyResolver.decode (StateKeyResolver.encode t k) = Except.ok (t, k) := by
  unfold StateKeyResolver.decode StateKeyResolver.encode
  rw [findSplit_append_sep t k hts]
  simp only [take_len_append_cons, drop_len_succ_append_cons]
  simp [ht, hk]

/-- C4: for all non-empty `table` and non-empty `key`, neither containing the
    separator byte, `decodeKey (encodeKey table key)` returns exactly
    `(table, key)`. -/
theorem decode_encode_roundtrip (t k : List Nat)
    (ht : t ≠ []) (hk : k ≠ [])
    (hts : TABLE_KEY_SPLIT ∉ t) (hks : TABLE_KEY_SPLIT ∉ k) :
    StateKeyResolver.decode (StateKeyResolver.encode t k) = Except.ok (t, k) :=
  decode_encode_aux t k ht hk hts

/-- Witness for C4 at the concrete pair `([1], [2])`. -/
theorem decode_encode_roundtrip_witness :
    StateKeyResolver.decode (StateKeyResolver.encode [1] [2]) =
      Except.ok ([1], [2]) :=
  decode_encode_roundtrip [1] [2] (by decide) (by decide) (by decide) (by decide)

/-- C10: `decodeKey` splits at the first separator occurrence, so the
    round-trip holds for every non-empty key — even one containing separator
    bytes — provided only that the table is non-empty and separator-free. -/
theorem decode_encode_roundtrip_sep_in_key (t k : List Nat)
    (ht : t ≠ []) (hk : k ≠ []) (hts : TABLE_KEY_SPLIT ∉ t) :
    StateKeyResolver.decode (StateKeyResolver.encode t k) = Except.ok (t, k) :=
  decode_encode_aux t k ht hk hts

/-- Witness for C10 with the separator byte inside the key:
    `k = [58, 2]` contains `TABLE_KEY_SPLIT = 58`. -/
theorem decode_encode_roundtrip_sep_in_key_witness :
    StateKeyResolver.decode (StateKeyResolver.encode [1] [58, 2]) =
      Except.ok ([1], [58, 2]) :=
  decode_encode_roundtrip_sep_in_key [1] [58, 2] (by decide) (by decide)
    (by decide)

/-- C5: `decodeKey` fails with `InvalidStateKey` exactly on malformed input —
    no separator, first separator at position 0 (empty table segment), or
    first separator at the last position (empty key segment); every input
    with a separator and two non-empty segments succeeds. -/
theorem decode_error_iff_malformed (buffer : List Nat) :
    (StateKeyResolver.decode buffer = Except.error DecodeError.invalidStateKey ↔
      (TABLE_KEY_SPLIT ∉ buffer ∨ findSplit buffer = some 0 ∨
        findSplit buffer = some (buffer.length - 1)))
    ∧ (∀ p, findSplit buffer = some p → p ≠ 0 → p ≠ buffer.length - 1 →
        StateKeyResolver.decode buffer =
          Except.ok (buffer.take p, buffer.drop (p + 1))) := by
  constructor
  · cases hfs : findSplit buffer with
    | none =>
      have hmem : TABLE_KEY_SPLIT ∉ buffer := (findSplit_eq_none_iff buffer).mp hfs
      simp [StateKeyResolver.decode, hfs, hmem]
    | some p =>
      have hlt : p < buffer.length := findSplit_some_lt buffer p hfs
      have hmem : TABLE_KEY_SPLIT ∈ buffer := by
        by_contra hc
        rw [(findSplit_eq_none_iff buffer).mpr hc] at hfs
        exact Option.noConfusion hfs
      have hne : buffer ≠ [] := by
        intro hc
        subst hc
        simp at hlt
      simp only [StateKeyResolver.decode, hfs]
      constructor
      · intro herr
        by_cases hcond : buffer.take p = [] ∨ buffer.drop (p + 1) = []
        · rcases hcond with htk | hdp
          · have hp : p = 0 := by
              rcases List.take_eq_nil_iff.mp htk with h0 | h0
              · exact h0
              · exact absurd h0 hne
            subst hp
            exact Or.inr (Or.inl rfl)
          · have hle : buffer.length ≤ p + 1 := by
              by_contra hc
              push_neg at hc
              have hnil : buffer.drop (p + 1) ≠ [] := by
                intro hnil
                have := List.drop_eq_nil_iff.mp hnil
                omega
              exact hnil hdp
            have hp : p = buffer.length - 1 := by omega
            subst hp
            exact Or.inr (Or.inr rfl)
        · rw [if_neg hcond] at herr
          exact Except.noConfusion herr
      · intro hcases
        rcases hcases with hm | hp0 | hpl
        · exact absurd hmem hm
        · have hp : p = 0 := Option.some.inj hp0
          subst hp
          simp
        · have hp : p = buffer.length - 1 := Option.some.inj hpl
          have hdp : buffer.drop (p + 1) = [] := by
            apply List.drop_eq_nil_iff.mpr
            omega
          simp [hdp]
  · intro p hp hp0 hpl
    have hlt : p < buffer.length := findSplit_some_lt buffer p hp
    have htk : buffer.take p ≠ [] := by
      intro hc
      rcases List.take_eq_nil_iff.mp hc with h0 | h0
      · exact hp0 h0
      · subst h0; simp at hlt
    have hdp : buffer.drop (p + 1) ≠ [] := by
      intro hc
      have := List.drop_eq_nil_iff.mp hc
      omega
    simp [StateKeyResolver.decode, hp, htk, hdp]

/-! ### Transactional storage with savepoints

`HostContext` runs over a `Rollbackable` storage wrapper whose sources are not
part of the sampled tree; the model below follows the specification's
savepoint contract (section 4.2). -/

/-- A state key: `(table name, raw key bytes)`, as in
    `transaction_executor::StateKey`. -/
abbrev StateKey := List Nat × List Nat

/-- An entry is an opaque value blob (`storage::Entry`). -/
abbrev Entry := List Nat

/-- Modelled from the spec: the transactional storage the Host requires
    (section 4.2, `Rollbackable`) — a base map plus an append-only write
    journal; `current` is the journal length, `rollback` truncates the
    journal, reads see the latest journal write and fall through to the
    base. -/
structure Store where
  base : StateKey → Option Entry
  journal : List (StateKey × Entry)

/-- Latest write for a key in a journal (later writes shadow earlier ones). -/
def findLastWrite (j : List (StateKey × Entry)) (key : StateKey) : Option Entry :=
  List.foldl (fun acc e => if e.1 = key then some e.2 else acc) none j

/-- Point read: latest journal write, else the base map. -/
def Store.lookup (s : Store) (key : StateKey) : Option Entry :=
  match findLastWrite s.journal key with
  | some v => some v
  | none => s.base key

/-- Point write: append to the journal. -/
def Store.write (s : Store) (key : StateKey) (value : Entry) : Store :=
  ⟨s.base, s.journal ++ [(key, value)]⟩

/-- `current()`: an O(1) cursor into the write history. -/
def Store.current (s : Store) : Nat := s.journal.length

/-- `rollback(savepoint)`: discard every write after the savepoint. -/
def Store.rollback (s : Store) (savepoint : Nat) : Store :=
  ⟨s.base, s.journal.take savepoint⟩

/-- A store extended by further journalled writes (what any well-behaved
    interpreter invocation does to the store it is given: nested savepoints
    are taken and rolled back only above the caller's cursor). -/
def extendStore (s : Store) (ext : List (StateKey × Entry)) : Store :=
  ⟨s.base, s.journal ++ ext⟩

/-- Number of journalled writes touching a given key. -/
def writesTo (s : Store) (key : StateKey) : Nat :=
  List.countP (fun e => decide (e.1 = key)) s.journal

lemma findLastWrite_append_single (j : List (StateKey × Entry)) (k : StateKey)
    (v : Entry) (key : StateKey) :
    findLastWrite (j ++ [(k, v)]) key =
      if k = key then some v else findLastWrite j key := by
  simp [findLastWrite, List.foldl_append]

lemma lookup_write (s : Store) (k : StateKey) (v : Entry) (key : StateKey) :
    Store.lookup (Store.write s k v) key =
      if k = key then some v else Store.lookup s key := by
  cases s with
  | mk base journal =>
    simp only [Store.lookup, Store.write, findLastWrite_append_single]
    by_cases h : k = key
    · simp [h]
    · simp [h]

lemma writesTo_write (s : Store) (k : StateKey) (v : Entry) (key : StateKey) :
    writesTo (Store.write s k v) key =
      writesTo s key + (if k = key then 1 else 0) := by
  cases s with
  | mk base journal =>
    simp only [writesTo, Store.write, List.countP_append, List.countP_cons,
      List.countP_nil]
    by_cases h : k = key
    · simp [h]
    · simp [h]

lemma rollback_extend (s : Store) (ext : List (StateKey × Entry)) :
    Store.rollback (extendStore s ext) (Store.current s) = s := by
  cases s with
  | mk base journal =>
    simp [Store.rollback, extendStore, Store.current, List.take_left]

/-! ### Execution host: HostContext (HostContext.h) -/

/-- EVMC call kinds, as in `evmc_call_kind`. -/
def EVMC_CALL : Nat := 0

/-- `EVMC_DELEGATECALL`. -/
def EVMC_DELEGATECALL : Nat := 1

/-- `EVMC_CALLCODE`. -/
def EVMC_CALLCODE : Nat := 2

/-- `EVMC_CREATE`. -/
def EVMC_CREATE : Nat := 3

/-- `EVMC_CREATE2`. -/
def EVMC_CREATE2 : Nat := 4

/-- `EVMC_SUCCESS` status code. -/
def EVMC_SUCCESS : Int := 0

/-- Modelled from the spec: the zero address sentinel `EMPTY_ADDRESS`
    (framework constant, not in the sampled tree) — an all-zero 20-byte
    address. -/
def EMPTY_ADDRESS : List Nat := List.replicate 20 0

/-- Modelled from the spec: the `USER_APPS_PREFIX` table-name prefix
    (framework constant "/apps/"); its exact bytes are not load-bearing,
    only that contract tables differ from the code and ABI tables. -/
def USER_APPS : List Nat := [47, 97, 112, 112, 115, 47]

/-- Modelled from the spec: the shared code table `ledger::SYS_CODE_BINARY`
    ("s_code_binary"). -/
def SYS_CODE_BINARY : List Nat :=
  [115, 95, 99, 111, 100, 101, 95, 98, 105, 110, 97, 114, 121]

/-- Modelled from the spec: the ABI table `ledger::SYS_CONTRACT_ABI`
    ("s_contract_abi"). -/
def SYS_CONTRACT_ABI : List Nat :=
  [115, 95, 99, 111, 110, 116, 114, 97, 99, 116, 95, 97, 98, 105]

/-- Modelled from the spec: the fixed per-contract code-hash field
    `ACCOUNT_CODE_HASH` ("codeHash"). -/
def ACCOUNT_CODE_HASH : List Nat := [99, 111, 100, 101, 72, 97, 115, 104]

/-- `HostContext::getTableNameID`: the contract table name is the apps prefix
    followed by the 20 address bytes (string-pool handles are equal exactly
    for equal content, so the interned id is modelled by the name itself). -/
def tableNameOf (address : List Nat) : List Nat := USER_APPS ++ address

/-- An `evmc_message` (the fields the host reads). -/
structure EvmcMessage where
  kind : Nat
  sender : List Nat
  recipient : List Nat
  code_address : List Nat
  input_data : List Nat
deriving DecidableEq

/-- An interpreter result (`EVMCResult`): status, output bytes, created
    address. -/
structure EVMCResult where
  status_code : Int
  output_data : List Nat
  create_address : List Nat
deriving DecidableEq

/-- Replace a message's sender (used for the nested-CREATE rewrite). -/
def withSender (m : EvmcMessage) (sender : List Nat) : EvmcMessage :=
  ⟨m.kind, sender, m.recipient, m.code_address, m.input_data⟩

/-- Attach a created address to a result (`result.create_address = ...`). -/
def withCreateAddress (r : EVMCResult) (address : List Nat) : EVMCResult :=
  ⟨r.status_code, r.output_data, address⟩

/-- Hard errors raised by the host: `NotFoundCodeError` from `call()`, and
    the `std::runtime_error` thrown for CREATE2 in `getMyContractTable`. -/
inductive HostError where
  | notFoundCode
  | createTwoUnimplemented
deriving DecidableEq

/-- Log entries (`protocol::LogEntry`): emplaced with empty address bytes,
    the topics and the data. -/
structure LogEntry where
  address : List Nat
  topics : List (List Nat)
  data : List Nat
deriving DecidableEq

/-- The host state fixed at construction: the hash implementation (opaque
    external collaborator), block number, context id, the borrowed message,
    and the two fields computed by `getMyContractTable`. -/
structure HostContext where
  hasher : List Nat → List Nat
  m_blockNumber : Int
  m_contextID : Int
  m_message : EvmcMessage
  m_newContractAddress : List Nat
  m_myContractTable : List Nat

/-- The ASCII-decimal seed `fmt::format("{}_{}_{}", blockNumber, contextID,
    seq)` hashed for CREATE address derivation. -/
def createAddressSeed (blockNumber contextID seq : Int) : String :=
  toString blockNumber ++ "_" ++ toString contextID ++ "_" ++ toString seq

/-- Byte view of a string (the hash is taken over the formatted bytes). -/
def stringBytes (s : String) : List Nat := s.toList.map Char.toNat

/-- The derived CREATE address: first 20 bytes of the hash of the seed. -/
def newContractAddressOf (hasher : List Nat → List Nat)
    (blockNumber contextID seq : Int) : List Nat :=
  (hasher (stringBytes (createAddressSeed blockNumber contextID seq))).take 20

/-- `HostContext`'s constructor together with `getMyContractTable`: CREATE
    derives a fresh address and its table, CREATE2 throws, and any other kind
    zeroes `m_newContractAddress` and addresses the recipient's table. -/
def mkHost (hasher : List Nat → List Nat) (blockNumber contextID seq : Int)
    (message : EvmcMessage) : Except HostError HostContext :=
  if message.kind = EVMC_CREATE then
    let address := newContractAddressOf hasher blockNumber contextID seq
    Except.ok ⟨hasher, blockNumber, contextID, message, address,
      tableNameOf address⟩
  else if message.kind = EVMC_CREATE2 then
    Except.error HostError.createTwoUnimplemented
  else
    Except.ok ⟨hasher, blockNumber, contextID, message, EMPTY_ADDRESS,
      tableNameOf message.recipient⟩

/-- `HostContext::code`: read the code-hash field of the address's table,
    then the code table entry under that hash; absent at either step means
    no code. -/
def HostContext.codeAt (s : Store) (address : List Nat) : Option (List Nat) :=
  (Store.lookup s (tableNameOf address, ACCOUNT_CODE_HASH)).bind
    (fun codeHashEntry => Store.lookup s (SYS_CODE_BINARY, codeHashEntry))

/-- `HostContext::codeHashAt`: the code-hash field, or a zero hash. -/
def HostContext.codeHashAt (s : Store) (address : List Nat) : List Nat :=
  match Store.lookup s (tableNameOf address, ACCOUNT_CODE_HASH) with
  | some codeHashEntry => codeHashEntry
  | none => List.replicate 32 0

/-- `HostContext::setCode(codeHash, code)`: write the code bytes into the
    shared code table only when absent, then unconditionally bind the hash
    into the contract's own table. -/
def HostContext.setCodeWithHash (host : HostContext) (codeHash code : List Nat)
    (s : Store) : Store :=
  let s1 :=
    if (Store.lookup s (SYS_CODE_BINARY, codeHash)).isSome then s
    else Store.write s (SYS_CODE_BINARY, codeHash) code
  Store.write s1 (host.m_myContractTable, ACCOUNT_CODE_HASH) codeHash

/-- `HostContext::setCode(code)`: hash the code and store it. -/
def HostContext.setCode (host : HostContext) (code : List Nat) (s : Store) :
    Store :=
  HostContext.setCodeWithHash host (host.hasher code) code s

/-- `HostContext::setCodeAndABI`: store the code, then write the ABI under
    the code hash only when absent. -/
def HostContext.setCodeAndABI (host : HostContext) (code abi : List Nat)
    (s : Store) : Store :=
  let codeHash := host.hasher code
  let s1 := HostContext.setCodeWithHash host codeHash code s
  if (Store.lookup s1 (SYS_CONTRACT_ABI, codeHash)).isSome then s1
  else Store.write s1 (SYS_CONTRACT_ABI, codeHash) abi

/-- An interpreter invocation (`vmInstance.execute` on a VM built from a code
    hash and code bytes): opaque, returns a result and the store as mutated
    through the host interface. -/
def VMExec := List Nat → List Nat → Store → EVMCResult × Store

/-- `HostContext::create`: hash the input as create code, take a savepoint,
    run the interpreter; on failure roll back, on success persist the output
    as the new contract's code and attach the derived address. -/
def HostContext.create (host : HostContext) (vm : VMExec) (s : Store) :
    EVMCResult × Store :=
  let createCode := host.m_message.input_data
  let createCodeHash := host.hasher createCode
  let savepoint := Store.current s
  let rs := vm createCodeHash createCode s
  if rs.1.status_code ≠ 0 then
    (rs.1, Store.rollback rs.2 savepoint)
  else
    (withCreateAddress rs.1 host.m_newContractAddress,
      HostContext.setCode host rs.1.output_data rs.2)

/-- `HostContext::call`: look up the code (absent or empty is the fatal
    `NotFoundCodeError`), take a savepoint, run the interpreter, roll back on
    non-success. -/
def HostContext.call (host : HostContext) (vm : VMExec) (s : Store) :
    Except HostError EVMCResult × Store :=
  match HostContext.codeAt s host.m_message.code_address with
  | none => (Except.error HostError.notFoundCode, s)
  | some code =>
    if code.length = 0 then (Except.error HostError.notFoundCode, s)
    else
      let codeHash := HostContext.codeHashAt s host.m_message.code_address
      let savepoint := Store.current s
      let rs := vm codeHash code s
      if rs.1.status_code ≠ 0 then
        (Except.ok rs.1, Store.rollback rs.2 savepoint)
      else
        (Except.ok rs.1, rs.2)

/-- `HostContext::execute`: CREATE-kind messages go to `create`, everything
    else to `call`. -/
def HostContext.execute (host : HostContext) (vm : VMExec) (s : Store) :
    Except HostError EVMCResult × Store :=
  if host.m_message.kind = EVMC_CREATE ∨ host.m_message.kind = EVMC_CREATE2 then
    let rs := HostContext.create host vm s
    (Except.ok rs.1, rs.2)
  else
    HostContext.call host vm s

/-- The reserved precompiled ceiling `MAX_PRECOMPILED_ADDRESS`. -/
def MAX_PRECOMPILED_ADDRESS : Nat := 100000

/-- `fromBigEndian<u160>` over the 20 code-address bytes. -/
def fromBigEndian (bytes : List Nat) : Nat :=
  bytes.foldl (fun acc b => acc * 256 + b) 0

/-- The precompiled dispatch decision in `externalCall`: only addresses
    strictly between 0 and the ceiling consult the registry. -/
def precompiledLookup (pm : Nat → Option (EvmcMessage → EVMCResult))
    (code_address : List Nat) : Option (EvmcMessage → EVMCResult) :=
  let address := fromBigEndian code_address
  if 0 < address ∧ address < MAX_PRECOMPILED_ADDRESS then pm address else none

/-- The sender rewrite in `externalCall`: a nested CREATE whose sender is the
    zero sentinel gets this host's `m_newContractAddress` as sender. -/
def HostContext.dispatchMessage (host : HostContext) (message : EvmcMessage) :
    EvmcMessage :=
  if message.kind = EVMC_CREATE ∧ message.sender = EMPTY_ADDRESS then
    withSender message host.m_newContractAddress
  else message

/-- The child host's `execute` as seen from `externalCall` (the recursion is
    cut here): message, the shared sequence counter after increment, and the
    store, producing the child's result, store, accumulated logs, and the
    counter after the child's own nested dispatches. -/
def ChildExec :=
  EvmcMessage → Int → Store →
    Except HostError EVMCResult × Store × List LogEntry × Int

/-- What one `externalCall` produces: the result, the store, the parent's
    logs after any merge, the shared counter, and — when a child host was
    constructed — the message it was given together with the counter value at
    construction (`none` records the precompiled short-circuit). -/
structure ExtCallOutcome where
  result : Except HostError EVMCResult
  store : Store
  logs : List LogEntry
  seq : Int
  childCall : Option (EvmcMessage × Int)

/-- `HostContext::externalCall`: precompiled short-circuit, otherwise
    increment the shared counter, rewrite a zero-sender nested CREATE's
    sender, run a child host, and merge its logs only on success. -/
def HostContext.externalCall (host : HostContext)
    (pm : Nat → Option (EvmcMessage → EVMCResult)) (childExec : ChildExec)
    (message : EvmcMessage) (seq : Int) (logs : List LogEntry) (s : Store) :
    ExtCallOutcome :=
  match precompiledLookup pm message.code_address with
  | some handler => ⟨Except.ok (handler message), s, logs, seq, none⟩
  | none =>
    let seq1 := seq + 1
    let messagePtr := HostContext.dispatchMessage host message
    let res := childExec messagePtr seq1 s
    let mergedLogs :=
      match res.1 with
      | Except.ok r =>
        if r.status_code = EVMC_SUCCESS ∧ res.2.2.1 ≠ [] then
          logs ++ res.2.2.1
        else logs
      | Except.error _ => logs
    ⟨res.1, res.2.1, mergedLogs, res.2.2.2, some (messagePtr, seq1)⟩

/-- `HostContext::log`: append one log entry with empty address bytes. -/
def HostContext.log (logs : List LogEntry) (topics : List (List Nat))
    (data : List Nat) : List LogEntry :=
  logs ++ [⟨[], topics, data⟩]

/-! ### Host theorems -/

lemma tableNameOf_ne_codeTable (a : List Nat) :
    tableNameOf a ≠ SYS_CODE_BINARY := by
  simp [tableNameOf, USER_APPS, SYS_CODE_BINARY]

lemma tableNameOf_ne_abiTable (a : List Nat) :
    tableNameOf a ≠ SYS_CONTRACT_ABI := by
  simp [tableNameOf, USER_APPS, SYS_CONTRACT_ABI]

lemma codeTable_ne_abiTable : SYS_CODE_BINARY ≠ SYS_CONTRACT_ABI := by
  decide

lemma create_fail (host : HostContext) (vm : VMExec) (s : Store)
    (r : EVMCResult) (ext : List (StateKey × Entry))
    (hvm : vm (host.hasher host.m_message.input_data)
        host.m_message.input_data s = (r, extendStore s ext))
    (hfail : r.status_code ≠ 0) :
    HostContext.create host vm s = (r, s) := by
  simp only [HostContext.create]
  rw [hvm]
  simp [hfail, rollback_extend]

lemma call_found_fail (host : HostContext) (vm : VMExec) (s : Store)
    (code : List Nat) (r : EVMCResult) (ext : List (StateKey × Entry))
    (hcode : HostContext.codeAt s host.m_message.code_address = some code)
    (hlen : code.length ≠ 0)
    (hvm : vm (HostContext.codeHashAt s host.m_message.code_address) code s =
      (r, extendStore s ext))
    (hfail : r.status_code ≠ 0) :
    HostContext.call host vm s = (Except.ok r, s) := by
  simp only [HostContext.call, hcode]
  rw [if_neg hlen]
  rw [hvm]
  simp [hfail, rollback_extend]

/-- C1: on every host execution — create-kind or call-kind — whenever the
    interpreter returns a non-success status over a store it only extended,
    the host rolls back to the savepoint taken immediately before the
    invocation and returns the interpreter's failure result unchanged: the
    final store is exactly the pre-invocation store. -/
theorem execute_rollback_on_failure (host : HostContext) (vm : VMExec)
    (s : Store) (r : EVMCResult) (ext : List (StateKey × Entry))
    (ch c : List Nat)
    (hbranch :
      ((host.m_message.kind = EVMC_CREATE ∨ host.m_message.kind = EVMC_CREATE2)
          ∧ ch = host.hasher host.m_message.input_data
          ∧ c = host.m_message.input_data)
      ∨ ((host.m_message.kind ≠ EVMC_CREATE ∧ host.m_message.kind ≠ EVMC_CREATE2)
          ∧ HostContext.codeAt s host.m_message.code_address = some c
          ∧ c.length ≠ 0
          ∧ ch = HostContext.codeHashAt s host.m_message.code_address))
    (hvm : vm ch c s = (r, extendStore s ext))
    (hfail : r.status_code ≠ 0) :
    HostContext.execute host vm s = (Except.ok r, s) := by
  rcases hbranch with ⟨hkind, hch, hc⟩ | ⟨⟨hk1, hk2⟩, hcode, hlen, hch⟩
  · subst hch
    subst hc
    have hcr := create_fail host vm s r ext hvm hfail
    unfold HostContext.execute
    rw [if_pos hkind, hcr]
  · subst hch
    have hcl := call_found_fail host vm s c r ext hcode hlen hvm hfail
    unfold HostContext.execute
    rw [if_neg (not_or.mpr ⟨hk1, hk2⟩)]
    exact hcl

/-- C3: when the looked-up code for the message's code-address is absent or
    empty, `call` raises the fatal `NotFoundCodeError` — a hard error, not an
    interpreter status — and leaves the store untouched. -/
theorem call_missing_code_error (host : HostContext) (vm : VMExec) (s : Store)
    (h : HostContext.codeAt s host.m_message.code_address = none ∨
      HostContext.codeAt s host.m_message.code_address = some []) :
    HostContext.call host vm s = (Except.error HostError.notFoundCode, s) := by
  rcases h with h | h
  · simp [HostContext.call, h]
  · simp [HostContext.call, h]

lemma codeAt_of_lookups (s : Store) (address : List Nat) (chE ce : List Nat)
    (h1 : Store.lookup s (tableNameOf address, ACCOUNT_CODE_HASH) = some chE)
    (h2 : Store.lookup s (SYS_CODE_BINARY, chE) = some ce) :
    HostContext.codeAt s address = some ce := by
  unfold HostContext.codeAt
  rw [h1]
  exact h2

/-- C2: a CREATE-kind host derives its fresh contract address at construction
    by hashing the ASCII-decimal seed `blockNumber_contextID_seq`; on a
    successful `create` the interpreter's output is persisted as the new
    contract's code and exactly the derived address is attached to the
    result (the derivation is a pure function of the three inputs). -/
theorem create_derives_address_and_persists_code
    (hasher : List Nat → List Nat) (bn cid sq : Int) (msg : EvmcMessage)
    (host : HostContext) (vm : VMExec) (s s1 : Store) (r : EVMCResult)
    (hkind : msg.kind = EVMC_CREATE)
    (hmk : mkHost hasher bn cid sq msg = Except.ok host)
    (hvm : vm (hasher msg.input_data) msg.input_data s = (r, s1))
    (hsucc : r.status_code = 0)
    (hdedup : ∀ old,
      Store.lookup s1 (SYS_CODE_BINARY, hasher r.output_data) = some old →
        old = r.output_data) :
    host.m_newContractAddress = newContractAddressOf hasher bn cid sq
    ∧ (HostContext.create host vm s).1.create_address =
        newContractAddressOf hasher bn cid sq
    ∧ HostContext.codeAt (HostContext.create host vm s).2
        host.m_newContractAddress = some r.output_data := by
  have hhost : host = ⟨hasher, bn, cid, msg,
      newContractAddressOf hasher bn cid sq,
      tableNameOf (newContractAddressOf hasher bn cid sq)⟩ := by
    simp only [mkHost, hkind, if_pos] at hmk
    exact (Except.ok.inj hmk).symm
  subst hhost
  have hcr : HostContext.create
      ⟨hasher, bn, cid, msg, newContractAddressOf hasher bn cid sq,
        tableNameOf (newContractAddressOf hasher bn cid sq)⟩ vm s =
      (withCreateAddress r (newContractAddressOf hasher bn cid sq),
        HostContext.setCode
          ⟨hasher, bn, cid, msg, newContractAddressOf hasher bn cid sq,
            tableNameOf (newContractAddressOf hasher bn cid sq)⟩
          r.output_data s1) := by
    simp only [HostContext.create]
    rw [hvm]
    simp [hsucc]
  refine ⟨rfl, ?_, ?_⟩
  · rw [hcr]
    rfl
  · rw [hcr]
    simp only [HostContext.setCode, HostContext.setCodeWithHash]
    refine codeAt_of_lookups _ _ (hasher r.output_data) r.output_data ?_ ?_
    · rw [lookup_write, if_pos rfl]
    · rw [lookup_write, if_neg (by
        intro hc
        exact tableNameOf_ne_codeTable (newContractAddressOf hasher bn cid sq)
          (congrArg Prod.fst hc))]
      cases hl : Store.lookup s1 (SYS_CODE_BINARY, hasher r.output_data) with
      | some old =>
        simp only [hl, Option.isSome_some, if_true]
        rw [hdedup old hl]
      | none =>
        simp only [hl, Option.isSome_none, Bool.false_eq_true, if_false]
        rw [lookup_write, if_pos rfl]

lemma setCodeWithHash_lookup_code (host : HostContext) (a ch code : List Nat)
    (s : Store) (hwf : host.m_myContractTable = tableNameOf a) :
    Store.lookup (HostContext.setCodeWithHash host ch code s)
        (SYS_CODE_BINARY, ch) =
      some (Option.getD (Store.lookup s (SYS_CODE_BINARY, ch)) code) := by
  unfold HostContext.setCodeWithHash
  rw [lookup_write, if_neg (by
    intro hc
    rw [hwf] at hc
    exact tableNameOf_ne_codeTable a (congrArg Prod.fst hc))]
  cases hl : Store.lookup s (SYS_CODE_BINARY, ch) with
  | some old => simp [hl]
  | none =>
    simp only [hl, Option.isSome_none, Bool.false_eq_true, if_false]
    rw [lookup_write, if_pos rfl]
    rfl

lemma setCodeWithHash_writesTo_code (host : HostContext) (a ch code : List Nat)
    (s : Store) (hwf : host.m_myContractTable = tableNameOf a) :
    writesTo (HostContext.setCodeWithHash host ch code s) (SYS_CODE_BINARY, ch) =
      writesTo s (SYS_CODE_BINARY, ch) +
        (if (Store.lookup s (SYS_CODE_BINARY, ch)).isSome then 0 else 1) := by
  have hkeyne : ((host.m_myContractTable, ACCOUNT_CODE_HASH) : StateKey) ≠
      (SYS_CODE_BINARY, ch) := by
    intro hc
    rw [hwf] at hc
    exact tableNameOf_ne_codeTable a (congrArg Prod.fst hc)
  unfold HostContext.setCodeWithHash
  rw [writesTo_write, if_neg hkeyne]
  cases hl : Store.lookup s (SYS_CODE_BINARY, ch) with
  | some old => simp [hl]
  | none =>
    simp only [hl, Option.isSome_none, Bool.false_eq_true, if_false]
    rw [writesTo_write, if_pos rfl]

lemma setCodeWithHash_lookup_binding (host : HostContext) (ch code : List Nat)
    (s : Store) :
    Store.lookup (HostContext.setCodeWithHash host ch code s)
        (host.m_myContractTable, ACCOUNT_CODE_HASH) = some ch := by
  unfold HostContext.setCodeWithHash
  rw [lookup_write, if_pos rfl]

lemma setCodeWithHash_lookup_abi (host : HostContext) (a ch code k2 : List Nat)
    (s : Store) (hwf : host.m_myContractTable = tableNameOf a) :
    Store.lookup (HostContext.setCodeWithHash host ch code s)
        (SYS_CONTRACT_ABI, k2) = Store.lookup s (SYS_CONTRACT_ABI, k2) := by
  unfold HostContext.setCodeWithHash
  rw [lookup_write, if_neg (by
    intro hc
    rw [hwf] at hc
    exact tableNameOf_ne_abiTable a (congrArg Prod.fst hc))]
  cases hl : Store.lookup s (SYS_CODE_BINARY, ch) with
  | some old => simp [hl]
  | none =>
    simp only [hl, Option.isSome_none, Bool.false_eq_true, if_false]
    rw [lookup_write, if_neg (by
      intro hc
      exact codeTable_ne_abiTable (congrArg Prod.fst hc))]

/-- C6: code storage — the raw code bytes are written into the shared code
    table under the code's hash only when no entry for that hash exists (so
    a byte-identical second deployment adds no code-table write); the code
    hash is always written into the calling contract's own table under the
    fixed code-hash field, overwriting any prior value; and ABI metadata is
    written under the code hash only when absent. -/
theorem setCode_dedup_and_abi (host host2 : HostContext)
    (a a2 code abi : List Nat) (s : Store)
    (hwf : host.m_myContractTable = tableNameOf a)
    (hwf2 : host2.m_myContractTable = tableNameOf a2)
    (hhash : host2.hasher = host.hasher) :
    (Store.lookup s (SYS_CODE_BINARY, host.hasher code) = none →
      Store.lookup (HostContext.setCode host code s)
        (SYS_CODE_BINARY, host.hasher code) = some code)
    ∧ (∀ old, Store.lookup s (SYS_CODE_BINARY, host.hasher code) = some old →
      Store.lookup (HostContext.setCode host code s)
          (SYS_CODE_BINARY, host.hasher code) = some old
      ∧ writesTo (HostContext.setCode host code s)
            (SYS_CODE_BINARY, host.hasher code) =
          writesTo s (SYS_CODE_BINARY, host.hasher code))
    ∧ writesTo
        (HostContext.setCode host2 code (HostContext.setCode host code s))
        (SYS_CODE_BINARY, host.hasher code)
      = writesTo (HostContext.setCode host code s)
          (SYS_CODE_BINARY, host.hasher code)
    ∧ Store.lookup (HostContext.setCode host code s)
        (host.m_myContractTable, ACCOUNT_CODE_HASH) = some (host.hasher code)
    ∧ (Store.lookup s (SYS_CONTRACT_ABI, host.hasher code) = none →
      Store.lookup (HostContext.setCodeAndABI host code abi s)
        (SYS_CONTRACT_ABI, host.hasher code) = some abi)
    ∧ (∀ old, Store.lookup s (SYS_CONTRACT_ABI, host.hasher code) = some old →
      Store.lookup (HostContext.setCodeAndABI host code abi s)
        (SYS_CONTRACT_ABI, host.hasher code) = some old) := by
  refine ⟨?_, ?_, ?_, ?_, ?_, ?_⟩
  · intro hnone
    unfold HostContext.setCode
    rw [setCodeWithHash_lookup_code host a (host.hasher code) code s hwf, hnone]
    rfl
  · intro old hold
    constructor
    · unfold HostContext.setCode
      rw [setCodeWithHash_lookup_code host a (host.hasher code) code s hwf,
        hold]
      rfl
    · unfold HostContext.setCode
      rw [setCodeWithHash_writesTo_code host a (host.hasher code) code s hwf,
        hold]
      simp
  · unfold HostContext.setCode
    rw [hhash]
    rw [setCodeWithHash_writesTo_code host2 a2 (host.hasher code) code _ hwf2]
    rw [setCodeWithHash_lookup_code host a (host.hasher code) code s hwf]
    simp
  · unfold HostContext.setCode
    exact setCodeWithHash_lookup_binding host (host.hasher code) code s
  · intro hnone
    simp only [HostContext.setCodeAndABI]
    rw [setCodeWithHash_lookup_abi host a (host.hasher code) code
      (host.hasher code) s hwf, hnone]
    simp only [Option.isSome_none, Bool.false_eq_true, if_false]
    rw [lookup_write, if_pos rfl]
  · intro old hold
    simp only [HostContext.setCodeAndABI]
    rw [setCodeWithHash_lookup_abi host a (host.hasher code) code
      (host.hasher code) s hwf, hold]
    simp only [Option.isSome_some, if_true]
    rw [setCodeWithHash_lookup_abi host a (host.hasher code) code
      (host.hasher code) s hwf, hold]

lemma precompiledLookup_none_of_not (pm : Nat → Option (EvmcMessage → EVMCResult))
    (code_address : List Nat)
    (hno : ¬(0 < fromBigEndian code_address ∧
      fromBigEndian code_address < MAX_PRECOMPILED_ADDRESS ∧
      (pm (fromBigEndian code_address)).isSome)) :
    precompiledLookup pm code_address = none := by
  simp only [precompiledLookup]
  by_cases hc : 0 < fromBigEndian code_address ∧
      fromBigEndian code_address < MAX_PRECOMPILED_ADDRESS
  · rw [if_pos hc]
    cases hp : pm (fromBigEndian code_address) with
    | none => rfl
    | some hd =>
      exact absurd ⟨hc.1, hc.2, by rw [hp]; rfl⟩ hno
  · rw [if_neg hc]

/-- C7 (amended): a nested message whose code-address is numerically greater
    than zero and below the precompiled ceiling and for which the registry
    returns a handler is short-circuited — the handler's result is returned
    directly, the shared counter is untouched and no child host is
    constructed; every other nested message increments the counter exactly
    once, to `seq + 1`, before the child host is constructed. -/
theorem externalCall_precompiled_dispatch (host : HostContext)
    (pm : Nat → Option (EvmcMessage → EVMCResult)) (childExec : ChildExec)
    (message : EvmcMessage) (seq : Int) (logs : List LogEntry) (s : Store) :
    (∀ handler, 0 < fromBigEndian message.code_address →
      fromBigEndian message.code_address < MAX_PRECOMPILED_ADDRESS →
      pm (fromBigEndian message.code_address) = some handler →
      HostContext.externalCall host pm childExec message seq logs s =
        ⟨Except.ok (handler message), s, logs, seq, none⟩)
    ∧ (¬(0 < fromBigEndian message.code_address ∧
        fromBigEndian message.code_address < MAX_PRECOMPILED_ADDRESS ∧
        (pm (fromBigEndian message.code_address)).isSome) →
      (HostContext.externalCall host pm childExec message seq logs s).childCall =
        some (HostContext.dispatchMessage host message, seq + 1)) := by
  constructor
  · intro handler h1 h2 h3
    have hpre : precompiledLookup pm message.code_address = some handler := by
      simp only [precompiledLookup]
      rw [if_pos ⟨h1, h2⟩]
      exact h3
    unfold HostContext.externalCall
    rw [hpre]
  · intro hno
    have hpre := precompiledLookup_none_of_not pm message.code_address hno
    unfold HostContext.externalCall
    rw [hpre]

/-- C8 (amended): for a nested CREATE-kind message whose sender is the zero
    sentinel, `externalCall` rewrites the sender to the dispatching host's
    `m_newContractAddress` field — the newly derived address when that host
    is itself CREATE-kind, the all-zero address otherwise — before the child
    host is constructed; every other non-precompiled nested message is passed
    through unchanged. -/
theorem externalCall_create_sender_rewrite (host : HostContext)
    (pm : Nat → Option (EvmcMessage → EVMCResult)) (childExec : ChildExec)
    (message : EvmcMessage) (seq : Int) (logs : List LogEntry) (s : Store)
    (hnopre : precompiledLookup pm message.code_address = none) :
    (message.kind = EVMC_CREATE ∧ message.sender = EMPTY_ADDRESS →
      (HostContext.externalCall host pm childExec message seq logs s).childCall =
        some (withSender message host.m_newContractAddress, seq + 1))
    ∧ (¬(message.kind = EVMC_CREATE ∧ message.sender = EMPTY_ADDRESS) →
      (HostContext.externalCall host pm childExec message seq logs s).childCall =
        some (message, seq + 1)) := by
  have hcc : (HostContext.externalCall host pm childExec message seq logs
      s).childCall = some (HostContext.dispatchMessage host message, seq + 1) := by
    unfold HostContext.externalCall
    rw [hnopre]
  constructor
  · intro hcond
    rw [hcc]
    unfold HostContext.dispatchMessage
    rw [if_pos hcond]
  · intro hcond
    rw [hcc]
    unfold HostContext.dispatchMessage
    rw [if_neg hcond]

/-- C9: after a non-precompiled nested dispatch, the child host's accumulated
    logs are appended to the parent's log list, in order, exactly when the
    child's result status is success; on a failure status or a hard error the
    logs are discarded, and the store handed back by the child is passed
    through unchanged either way. -/
theorem externalCall_log_merge (host : HostContext)
    (pm : Nat → Option (EvmcMessage → EVMCResult)) (childExec : ChildExec)
    (message : EvmcMessage) (seq : Int) (logs : List LogEntry) (s : Store)
    (res : Except HostError EVMCResult) (s2 : Store) (clogs : List LogEntry)
    (seq2 : Int)
    (hnopre : precompiledLookup pm message.code_address = none)
    (hchild : childExec (HostContext.dispatchMessage host message) (seq + 1) s =
      (res, s2, clogs, seq2)) :
    ((HostContext.externalCall host pm childExec message seq logs s).logs =
      match res with
      | Except.ok r =>
        if r.status_code = EVMC_SUCCESS then logs ++ clogs else logs
      | Except.error _ => logs)
    ∧ (HostContext.externalCall host pm childExec message seq logs s).store =
        s2 := by
  constructor
  · simp only [HostContext.externalCall, hnopre, hchild]
    cases res with
    | error e => rfl
    | ok r =>
      by_cases hs : r.status_code = EVMC_SUCCESS
      · by_cases hcl : clogs = []
        · subst hcl
          simp [hs]
        · simp [hs, hcl]
      · simp [hs]
  · simp only [HostContext.externalCall, hnopre, hchild]

/-! ### Concrete instances for witnesses and counterexamples -/

/-- A concrete stand-in hash implementation. -/
def hasher0 : List Nat → List Nat := fun l => List.replicate 32 (l.length % 256)

/-- The empty store. -/
def storeEmpty : Store := ⟨fun _ => none, []⟩

/-- A concrete failure result (status 2 with revert output). -/
def rFail : EVMCResult := ⟨2, [7], EMPTY_ADDRESS⟩

/-- A concrete success result. -/
def rOk : EVMCResult := ⟨0, [1, 2, 3], EMPTY_ADDRESS⟩

/-- A trivial child execution producing a success and no logs. -/
def childExec0 : ChildExec := fun _ sq st => (Except.ok rOk, st, [], sq)

/-- An empty precompiled registry. -/
def pmNone : Nat → Option (EvmcMessage → EVMCResult) := fun _ => none

/-- A concrete CREATE-kind message. -/
def msgCreate0 : EvmcMessage :=
  ⟨EVMC_CREATE, EMPTY_ADDRESS, EMPTY_ADDRESS, EMPTY_ADDRESS, [1]⟩

/-- The address derived for `msgCreate0` at block 10, context 1, seq 0. -/
def addrD0 : List Nat := newContractAddressOf hasher0 10 1 0

/-- The host constructed for `msgCreate0`. -/
def hostCreate0 : HostContext :=
  ⟨hasher0, 10, 1, msgCreate0, addrD0, tableNameOf addrD0⟩

/-- A journal extension a failing interpreter leaves behind. -/
def extW : List (StateKey × Entry) := [((SYS_CODE_BINARY, [9]), [8])]

/-- An interpreter that writes and then fails. -/
def vmFail : VMExec := fun _ _ st => (rFail, extendStore st extW)

/-- An interpreter that succeeds without writing. -/
def vmOk : VMExec := fun _ _ st => (rOk, st)

/-- A concrete CALL-kind message. -/
def msgCall0 : EvmcMessage :=
  ⟨EVMC_CALL, EMPTY_ADDRESS, EMPTY_ADDRESS, EMPTY_ADDRESS, []⟩

/-- The host constructed for `msgCall0`. -/
def hostCall0 : HostContext :=
  ⟨hasher0, 10, 1, msgCall0, EMPTY_ADDRESS, tableNameOf EMPTY_ADDRESS⟩

/-- Witness for C1: a CREATE-kind execution whose interpreter fails with
    status 2 after appending a write; the host returns the failure unchanged
    and the store is exactly the initial one. -/
theorem execute_rollback_on_failure_witness :
    HostContext.execute hostCreate0 vmFail storeEmpty =
      (Except.ok rFail, storeEmpty) :=
  execute_rollback_on_failure hostCreate0 vmFail storeEmpty rFail extW
    (hostCreate0.hasher hostCreate0.m_message.input_data)
    hostCreate0.m_message.input_data
    (Or.inl ⟨Or.inl rfl, rfl, rfl⟩) rfl (by decide)

/-- Witness for C2 at block 10, context 1, seq 0 over the empty store. -/
theorem create_derives_address_and_persists_code_witness :
    hostCreate0.m_newContractAddress = newContractAddressOf hasher0 10 1 0
    ∧ (HostContext.create hostCreate0 vmOk storeEmpty).1.create_address =
        newContractAddressOf hasher0 10 1 0
    ∧ HostContext.codeAt (HostContext.create hostCreate0 vmOk storeEmpty).2
        hostCreate0.m_newContractAddress = some rOk.output_data :=
  create_derives_address_and_persists_code hasher0 10 1 0 msgCreate0
    hostCreate0 vmOk storeEmpty storeEmpty rOk rfl rfl rfl rfl
    (fun old h => Option.noConfusion h)

/-- Witness for C3: calling into an address with no code over the empty
    store. -/
theorem call_missing_code_error_witness :
    HostContext.call hostCall0 vmOk storeEmpty =
      (Except.error HostError.notFoundCode, storeEmpty) :=
  call_missing_code_error hostCall0 vmOk storeEmpty (Or.inl rfl)

/-- Witness for C6: storing code `[1]` with ABI `[2]` in the empty store,
    then storing the identical code again. -/
theorem setCode_dedup_and_abi_witness :
    Store.lookup (HostContext.setCode hostCreate0 [1] storeEmpty)
        (SYS_CODE_BINARY, hasher0 [1]) = some [1]
    ∧ Store.lookup (HostContext.setCode hostCreate0 [1] storeEmpty)
        (hostCreate0.m_myContractTable, ACCOUNT_CODE_HASH) = some (hasher0 [1])
    ∧ Store.lookup (HostContext.setCodeAndABI hostCreate0 [1] [2] storeEmpty)
        (SYS_CONTRACT_ABI, hasher0 [1]) = some [2]
    ∧ writesTo
        (HostContext.setCode hostCreate0 [1]
          (HostContext.setCode hostCreate0 [1] storeEmpty))
        (SYS_CODE_BINARY, hasher0 [1])
      = writesTo (HostContext.setCode hostCreate0 [1] storeEmpty)
          (SYS_CODE_BINARY, hasher0 [1]) := by
  have h := setCode_dedup_and_abi hostCreate0 hostCreate0 addrD0 addrD0
    [1] [2] storeEmpty rfl rfl rfl
  exact ⟨h.1 rfl, h.2.2.2.1, h.2.2.2.2.1 rfl, h.2.2.1⟩

/-- A registry with a handler registered at numeric address 0. -/
def pmZero : Nat → Option (EvmcMessage → EVMCResult) :=
  fun n => if n = 0 then some (fun _ => rOk) else none

/-- A nested message whose code-address bytes are all zero. -/
def msgPreZero : EvmcMessage :=
  ⟨EVMC_CALL, EMPTY_ADDRESS, EMPTY_ADDRESS, List.replicate 20 0, []⟩

/-- Counterexample to C7 as stated: the zero code-address is numerically
    below the reserved ceiling and the registry returns a handler for it,
    yet `externalCall` does not short-circuit — the shared counter is
    incremented (5 to 6) and a child host is constructed, because the source
    guard requires the address to be strictly positive. -/
theorem externalCall_precompiled_zero_counterexample :
    fromBigEndian msgPreZero.code_address < MAX_PRECOMPILED_ADDRESS
    ∧ (pmZero (fromBigEndian msgPreZero.code_address)).isSome = true
    ∧ (HostContext.externalCall hostCall0 pmZero childExec0 msgPreZero 5 []
        storeEmpty).seq = 6
    ∧ (HostContext.externalCall hostCall0 pmZero childExec0 msgPreZero 5 []
        storeEmpty).childCall = some (msgPreZero, 6) :=
  ⟨by decide, rfl, rfl, rfl⟩

/-- A concrete handler. -/
def handler3 : EvmcMessage → EVMCResult := fun _ => rOk

/-- A registry with a handler at numeric address 3. -/
def pm3 : Nat → Option (EvmcMessage → EVMCResult) :=
  fun n => if n = 3 then some handler3 else none

/-- A nested message whose code-address is numeric 3. -/
def msgPre3 : EvmcMessage :=
  ⟨EVMC_CALL, EMPTY_ADDRESS, EMPTY_ADDRESS, List.replicate 19 0 ++ [3], []⟩

/-- Witness for C7 (amended): a handler at positive address 3 short-circuits
    with counter untouched and no child host. -/
theorem externalCall_precompiled_dispatch_witness :
    HostContext.externalCall hostCall0 pm3 childExec0 msgPre3 5 [] storeEmpty =
      ⟨Except.ok (handler3 msgPre3), storeEmpty, [], 5, none⟩ :=
  (externalCall_precompiled_dispatch hostCall0 pm3 childExec0 msgPre3 5 []
    storeEmpty).1 handler3 (by decide) (by decide) rfl

/-- A nonzero contract address. -/
def addrR : List Nat := List.replicate 19 0 ++ [1]

/-- A top-level CALL-kind message whose recipient is `addrR`. -/
def msgTopR : EvmcMessage := ⟨EVMC_CALL, addrR, addrR, addrR, []⟩

/-- The host constructed for `msgTopR` — a CALL-kind host whose own contract
    table is `addrR`'s, and whose `m_newContractAddress` is zeroed. -/
def hostCallR : HostContext :=
  ⟨hasher0, 10, 1, msgTopR, EMPTY_ADDRESS, tableNameOf addrR⟩

/-- A code-address at or above the precompiled ceiling. -/
def bigAddr : List Nat := List.replicate 20 255

/-- A nested CREATE-kind message with the zero-sentinel sender. -/
def msgNestedCreate : EvmcMessage :=
  ⟨EVMC_CREATE, EMPTY_ADDRESS, EMPTY_ADDRESS, bigAddr, []⟩

/-- Counterexample to C8 as stated: a CALL-kind host whose own contract
    address is the nonzero `addrR` dispatches a nested CREATE with zero
    sender; the child message's sender comes out as the zero address (the
    host's zeroed `m_newContractAddress`), not as the host's own contract
    address `addrR`. -/
theorem externalCall_sender_rewrite_counterexample :
    mkHost hasher0 10 1 0 msgTopR = Except.ok hostCallR
    ∧ hostCallR.m_myContractTable = tableNameOf addrR
    ∧ addrR ≠ EMPTY_ADDRESS
    ∧ Option.map (fun x => x.1.sender)
        (HostContext.externalCall hostCallR pmNone childExec0 msgNestedCreate
          0 [] storeEmpty).childCall = some EMPTY_ADDRESS :=
  ⟨rfl, rfl, by decide, rfl⟩

/-- Witness for C8 (amended): the nested CREATE's sender is rewritten to the
    dispatching host's `m_newContractAddress` field. -/
theorem externalCall_create_sender_rewrite_witness :
    (HostContext.externalCall hostCallR pmNone childExec0 msgNestedCreate 0 []
      storeEmpty).childCall =
        some (withSender msgNestedCreate hostCallR.m_newContractAddress,
          0 + 1) :=
  (externalCall_create_sender_rewrite hostCallR pmNone childExec0
    msgNestedCreate 0 [] storeEmpty rfl).1 ⟨rfl, rfl⟩

/-- A parent log entry. -/
def logA : LogEntry := ⟨[], [[5]], [9]⟩

/-- A child log entry. -/
def logB : LogEntry := ⟨[], [[6]], [10]⟩

/-- A child execution that succeeds with one accumulated log entry. -/
def childExecLog : ChildExec := fun _ sq st => (Except.ok rOk, st, [logB], sq)

/-- Witness for C9: a successful child's log is appended after the parent's
    existing log, and the child's store is passed through. -/
theorem externalCall_log_merge_witness :
    (HostContext.externalCall hostCallR pmNone childExecLog msgNestedCreate 0
        [logA] storeEmpty).logs = [logA] ++ [logB]
    ∧ (HostContext.externalCall hostCallR pmNone childExecLog msgNestedCreate 0
        [logA] storeEmpty).store = storeEmpty := by
  have h := externalCall_log_merge hostCallR pmNone childExecLog
    msgNestedCreate 0 [logA] storeEmpty (Except.ok rOk) storeEmpty [logB] 1
    rfl rfl
  exact ⟨h.1, h.2⟩
